import Mathlib

/-!
# TalonCRM server: shallow embedding and verification

This file embeds the data model and the guarded CRUD operations of the
TalonCRM server (NestJS + Prisma) in Lean 4 and proves/refutes the frozen
claims about them.

Embedded source:
* `AuthService.register` / `AuthService.login` — `src/server/src/auth/auth.service.ts`
  (the current version of the service, the one whose `RegisterDto` carries the
  optional `organizationId`/`organizationName` pair and whose register may
  create an organization; it appears in the repository snapshot appended to
  `src/server/src/contacts/contacts.controller.ts`).
* `OrganizationsService.createOrganization` / `updateOrganization` /
  `deleteOrganization` — `src/server/src/organizations/organizations.service.ts`.
* `JwtAuthGuard.canActivate` — `src/server/src/auth/jwt-auth.guard.ts`, with
  `JwtStrategy.validate` from `jwt.strategy.ts` (`src/unnamed/part_000`).

Modelling conventions:
* The Prisma store is a pair of lists (`User`, `Organization`).  `findUnique`
  and `findFirst` become `List.find?`; `count` becomes `List.countP`.
  Prisma-generated cuid primary keys are modelled by passing the freshly
  generated id to the operation explicitly; the database-enforced uniqueness
  of primary keys appears as freshness side conditions on the step relation.
* `createdAt`/`updatedAt` timestamps are not modelled: no claim depends on
  them and the Prisma schema is not part of the snapshot.
* JavaScript truthiness on optional strings (`if (organizationId)`,
  `if (createdByUserId)`, `if (updateData.name && ...)`) is modelled by
  `truthy : Option String → Bool`, which is `false` both for an absent field
  and for the empty string — exactly as in the source.
* `bcrypt.hash`, `bcrypt.compare` and `jwtService.sign` are opaque effects;
  they are modelled as an abstract environment `Env` of pure functions.
* Typed HTTP exceptions become the inductive `Exn`; every operation returns
  `Except Exn α × Db`, the second component being the store after the call.
-/

/-- A row of the Prisma `User` table (timestamps omitted, see header). -/
structure User where
  id : String
  email : String
  passwordHash : String
  name : Option String
  role : String
  organizationId : String
deriving Repr, DecidableEq

/-- A row of the Prisma `Organization` table (timestamps omitted). -/
structure Organization where
  id : String
  name : String
deriving Repr, DecidableEq

/-- The relational store the services operate on: the two related tables. -/
structure Db where
  users : List User
  orgs : List Organization
deriving Repr, DecidableEq

/-- The typed HTTP exceptions thrown by the services
(`UnauthorizedException`, `ConflictException`, `BadRequestException`,
`NotFoundException` from `@nestjs/common`), with their message. -/
inductive Exn where
  | unauthorized (msg : String)
  | conflict (msg : String)
  | badRequest (msg : String)
  | notFound (msg : String)
deriving Repr, DecidableEq

/-- The JWT payload interface of `jwt.strategy.ts` (`sub` is the user id);
`iat`/`exp` are added by the JWT library, not by the services, and are
omitted. -/
structure JwtPayload where
  sub : String
  email : String
  role : String
  organizationId : String
deriving Repr, DecidableEq

/-- The opaque cryptographic/signing effects used by `AuthService`:
`bcrypt.hash (12 salt rounds)`, `bcrypt.compare`, `jwtService.sign`. -/
structure Env where
  hash : String → String
  compare : String → String → Bool
  sign : JwtPayload → String

/-- JavaScript truthiness of an optional string field: `undefined` and the
empty string are falsy, every other string is truthy. -/
def truthy : Option String → Bool
  | none => false
  | some s => !(s == "")

/-- `RegisterDto` of `auth.service.ts` (current version): optional
`organizationId` / `organizationName`. -/
structure RegisterDto where
  email : String
  password : String
  name : Option String
  organizationId : Option String
  organizationName : Option String
deriving Repr, DecidableEq

/-- `LoginDto` of `auth.service.ts`. -/
structure LoginDto where
  email : String
  password : String
deriving Repr, DecidableEq

/-- The `user` part of `AuthResponse`. -/
structure AuthUser where
  id : String
  email : String
  name : Option String
  role : String
  organizationId : String
deriving Repr, DecidableEq

/-- `AuthResponse` of `auth.service.ts`. -/
structure AuthResponse where
  access_token : String
  user : AuthUser
deriving Repr, DecidableEq

/-- `CreateOrganizationDto` of `organizations.service.ts`. -/
structure CreateOrganizationDto where
  name : String
  createdByUserId : Option String
deriving Repr, DecidableEq

/-- The `name` field of the `Partial<CreateOrganizationDto>` accepted by
`updateOrganization`.  (A `createdByUserId` in the partial would be rejected
by the Prisma client at runtime before touching the store; it is not
modelled.) -/
structure UpdateOrganizationDto where
  name : Option String
deriving Repr, DecidableEq

/-- `OrganizationResponse` of `organizations.service.ts`
(timestamps omitted). -/
structure OrganizationResponse where
  id : String
  name : String
  userCount : Nat
deriving Repr, DecidableEq

/-- `prisma.user.findUnique({ where: { email } })`. -/
def findUserByEmail (users : List User) (email : String) : Option User :=
  users.find? (fun u => u.email == email)

/-- `prisma.user.findUnique({ where: { id } })`. -/
def findUserById (users : List User) (id : String) : Option User :=
  users.find? (fun u => u.id == id)

/-- `prisma.organization.findUnique({ where: { id } })`. -/
def findOrgById (orgs : List Organization) (id : String) : Option Organization :=
  orgs.find? (fun o => o.id == id)

/-- `prisma.organization.findFirst({ where: { name } })`. -/
def findOrgByName (orgs : List Organization) (name : String) : Option Organization :=
  orgs.find? (fun o => o.name == name)

/-- The `AuthResponse` built by `register`/`login` for the user `u`:
a token signed over `{sub, email, role, organizationId}` plus the user's
public fields. -/
def authResponseFor (env : Env) (u : User) : AuthResponse :=
  { access_token := env.sign
      { sub := u.id, email := u.email, role := u.role,
        organizationId := u.organizationId }
    user := { id := u.id, email := u.email, name := u.name, role := u.role,
              organizationId := u.organizationId } }

/-- `AuthService.register` (`auth.service.ts`, current version).
`freshOrgId`/`freshUserId` are the cuids Prisma generates for the rows
created by this call.  The default role of a user created without an
explicit role is `"USER"`; the `organizationName` branch sets `'ADMIN'`
explicitly, as in the source. -/
def register (env : Env) (freshOrgId freshUserId : String) (dto : RegisterDto)
    (db : Db) : Except Exn AuthResponse × Db :=
  match findUserByEmail db.users dto.email with
  | some _ => (.error (.conflict "User with this email already exists"), db)
  | none =>
    if truthy dto.organizationId then
      let oid := dto.organizationId.getD ""
      match findOrgById db.orgs oid with
      | none => (.error (.badRequest "Organization not found"), db)
      | some _ =>
        let u : User :=
          { id := freshUserId, email := dto.email,
            passwordHash := env.hash dto.password, name := dto.name,
            role := "USER", organizationId := oid }
        (.ok (authResponseFor env u), { db with users := db.users ++ [u] })
    else if truthy dto.organizationName then
      let org : Organization :=
        { id := freshOrgId, name := dto.organizationName.getD "" }
      let u : User :=
        { id := freshUserId, email := dto.email,
          passwordHash := env.hash dto.password, name := dto.name,
          role := "ADMIN", organizationId := freshOrgId }
      (.ok (authResponseFor env u),
        { users := db.users ++ [u], orgs := db.orgs ++ [org] })
    else
      (.error (.badRequest
        "Either organizationId or organizationName must be provided"), db)

/-- `AuthService.login` (`auth.service.ts`). -/
def login (env : Env) (dto : LoginDto) (db : Db) :
    Except Exn AuthResponse × Db :=
  match findUserByEmail db.users dto.email with
  | none => (.error (.unauthorized "Invalid credentials"), db)
  | some u =>
    if env.compare dto.password u.passwordHash then
      (.ok (authResponseFor env u), db)
    else
      (.error (.unauthorized "Invalid credentials"), db)

/-- `OrganizationsService.createOrganization` (`organizations.service.ts`).
`freshOrgId` is the cuid Prisma generates for the created row. -/
def createOrganization (freshOrgId : String) (dto : CreateOrganizationDto)
    (db : Db) : Except Exn OrganizationResponse × Db :=
  match findOrgByName db.orgs dto.name with
  | some _ =>
    (.error (.conflict "Organization with this name already exists"), db)
  | none =>
    if truthy dto.createdByUserId then
      let uid := dto.createdByUserId.getD ""
      match findUserById db.users uid with
      | none => (.error (.notFound "Creator user not found"), db)
      | some _ =>
        let org : Organization := { id := freshOrgId, name := dto.name }
        let users' := db.users.map (fun u =>
          if u.id == uid then
            { u with role := "ADMIN", organizationId := freshOrgId }
          else u)
        let userCount := users'.countP (fun u => u.organizationId == freshOrgId)
        (.ok { id := freshOrgId, name := dto.name, userCount := userCount },
          { users := users', orgs := db.orgs ++ [org] })
    else
      let org : Organization := { id := freshOrgId, name := dto.name }
      let userCount := db.users.countP (fun u => u.organizationId == freshOrgId)
      (.ok { id := freshOrgId, name := dto.name, userCount := userCount },
        { db with orgs := db.orgs ++ [org] })

/-- The `prisma.organization.update({ where: { id }, data: updateData })`
write: the row with the given id gets the new name when the partial carries
one (even the empty string), all other rows are untouched. -/
def applyOrgUpdate (orgs : List Organization) (id : String)
    (newName : Option String) : List Organization :=
  orgs.map (fun o =>
    if o.id == id then { o with name := newName.getD o.name } else o)

/-- `OrganizationsService.updateOrganization` (`organizations.service.ts`).
The name-conflict pre-check runs only when `updateData.name` is truthy and
differs from the current name — exactly the guard
`if (updateData.name && updateData.name !== organization.name)`. -/
def updateOrganization (id : String) (dto : UpdateOrganizationDto) (db : Db) :
    Except Exn OrganizationResponse × Db :=
  match findOrgById db.orgs id with
  | none => (.error (.notFound "Organization not found"), db)
  | some org =>
    let doUpdate : Except Exn OrganizationResponse × Db :=
      let orgs' := applyOrgUpdate db.orgs id dto.name
      let userCount := db.users.countP (fun u => u.organizationId == org.id)
      (.ok { id := org.id, name := dto.name.getD org.name,
             userCount := userCount },
        { db with orgs := orgs' })
    if truthy dto.name && !(dto.name.getD "" == org.name) then
      match db.orgs.find? (fun o =>
          o.name == dto.name.getD "" && !(o.id == id)) with
      | some _ =>
        (.error (.conflict "Organization with this name already exists"), db)
      | none => doUpdate
    else doUpdate

/-- `OrganizationsService.deleteOrganization` (`organizations.service.ts`). -/
def deleteOrganization (id : String) (db : Db) : Except Exn String × Db :=
  match findOrgById db.orgs id with
  | none => (.error (.notFound "Organization not found"), db)
  | some _ =>
    let userCount := db.users.countP (fun u => u.organizationId == id)
    if userCount > 0 then
      (.error (.conflict
        "Cannot delete organization with existing users. Please remove all users first."),
        db)
    else
      (.ok "Organization deleted successfully",
        { db with orgs := db.orgs.filter (fun o => !(o.id == id)) })

/-- `JwtStrategy.validate` (`jwt.strategy.ts`): resolve the request user
from the token's `sub`; `none` models the thrown `UnauthorizedException`. -/
def validateJwtUser (db : Db) (payload : JwtPayload) : Option User :=
  findUserById db.users payload.sub

/-- `JwtAuthGuard.canActivate` (`jwt-auth.guard.ts`) after the passport JWT
step: `resolvedUser = none` models a request whose token did not validate
(the super call throws / returns false); `requiredRoles = none` models a
route with no `Roles` metadata. -/
def canActivate (resolvedUser : Option User)
    (requiredRoles : Option (List String)) : Bool :=
  match resolvedUser with
  | none => false
  | some u =>
    match requiredRoles with
    | none => true
    | some rs => rs.any (fun role => u.role == role)

/-- The guard as applied to a request carrying a valid-signature JWT
`payload` against store `db`, for a route with metadata `requiredRoles`. -/
def guardPermits (db : Db) (payload : JwtPayload)
    (requiredRoles : Option (List String)) : Bool :=
  canActivate (validateJwtUser db payload) requiredRoles

/-! ## The transition system over the store

One step is one call to `register`, `createOrganization`,
`updateOrganization` or `deleteOrganization` — the four operations the
invariant claims quantify over.  Prisma's generation of cuid primary keys
is reflected by freshness side conditions on the generated ids. -/

/-- One call to one of the four store-mutating operations. -/
inductive Step (env : Env) : Db → Db → Prop where
  | reg (freshOrgId freshUserId : String) (dto : RegisterDto) (db : Db)
      (horg : freshOrgId ∉ db.orgs.map Organization.id)
      (huser : freshUserId ∉ db.users.map User.id) :
      Step env db (register env freshOrgId freshUserId dto db).2
  | create (freshOrgId : String) (dto : CreateOrganizationDto) (db : Db)
      (horg : freshOrgId ∉ db.orgs.map Organization.id) :
      Step env db (createOrganization freshOrgId dto db).2
  | update (id : String) (dto : UpdateOrganizationDto) (db : Db) :
      Step env db (updateOrganization id dto db).2
  | del (id : String) (db : Db) :
      Step env db (deleteOrganization id db).2

/-- Steps restricted as the amended uniqueness claim requires: `register`
is always called with a truthy `organizationId` (so it never creates an
organization), and `updateOrganization` never receives the empty string as
the new name. -/
inductive StepSafe (env : Env) : Db → Db → Prop where
  | reg (freshOrgId freshUserId : String) (dto : RegisterDto) (db : Db)
      (horg : freshOrgId ∉ db.orgs.map Organization.id)
      (huser : freshUserId ∉ db.users.map User.id)
      (hid : truthy dto.organizationId = true) :
      StepSafe env db (register env freshOrgId freshUserId dto db).2
  | create (freshOrgId : String) (dto : CreateOrganizationDto) (db : Db)
      (horg : freshOrgId ∉ db.orgs.map Organization.id) :
      StepSafe env db (createOrganization freshOrgId dto db).2
  | update (id : String) (dto : UpdateOrganizationDto) (db : Db)
      (hname : dto.name = none ∨ truthy dto.name = true) :
      StepSafe env db (updateOrganization id dto db).2
  | del (id : String) (db : Db) :
      StepSafe env db (deleteOrganization id db).2

/-- Reachability through any number of (unrestricted) operation calls. -/
def Reachable (env : Env) : Db → Db → Prop :=
  Relation.ReflTransGen (Step env)

/-- Reachability through restricted calls (see `StepSafe`). -/
def ReachableSafe (env : Env) : Db → Db → Prop :=
  Relation.ReflTransGen (StepSafe env)

/-- Every user's `organizationId` refers to an existing organization. -/
def RefIntegrity (db : Db) : Prop :=
  ∀ u ∈ db.users, ∃ o ∈ db.orgs, o.id = u.organizationId

/-- The primary keys of the `Organization` table are pairwise distinct
(database-enforced). -/
def OrgIdsDistinct (db : Db) : Prop :=
  (db.orgs.map Organization.id).Nodup

/-- No two distinct organizations have the same name. -/
def OrgNamesDistinct (db : Db) : Prop :=
  db.orgs.Pairwise (fun a b => a.name ≠ b.name)

/-! ## Helper lemmas -/

/-- With pairwise-distinct emails, `findUserByEmail` returns exactly the
member carrying that email. -/
lemma findUserByEmail_eq_some_of_mem {users : List User} {email : String}
    (hnd : (users.map User.email).Nodup) {u : User} (hu : u ∈ users)
    (he : u.email = email) : findUserByEmail users email = some u := by
  unfold findUserByEmail
  cases hfind : users.find? (fun v => v.email == email) with
  | none =>
    rw [List.find?_eq_none] at hfind
    exact absurd (by simp [he]) (hfind u hu)
  | some v =>
    have hv : v ∈ users := List.mem_of_find?_eq_some hfind
    have hve : v.email = email := by
      have := List.find?_some hfind
      simpa using this
    have : u = v :=
      List.inj_on_of_nodup_map hnd hu hv (by rw [he, hve])
    rw [this]

/-- `findUserByEmail` is `none` exactly when no user carries the email. -/
lemma findUserByEmail_eq_none {users : List User} {email : String} :
    findUserByEmail users email = none ↔ ∀ u ∈ users, u.email ≠ email := by
  unfold findUserByEmail
  rw [List.find?_eq_none]
  constructor
  · intro h u hu
    simpa using h u hu
  · intro h u hu
    simpa using h u hu

/-! ## Concrete fixtures used by the witness theorems -/

/-- A concrete stand-in for the bcrypt/JWT environment, used only in
witnesses: `hash` prefixes `"h"`, `compare` checks that prefix, `sign`
serialises the subject. -/
def envW : Env :=
  { hash := fun p => "h" ++ p,
    compare := fun p h => h == "h" ++ p,
    sign := fun pl => "tok:" ++ pl.sub ++ ":" ++ pl.role }

/-- A concrete user row for witnesses. -/
def userW : User :=
  { id := "u1", email := "a@x.com", passwordHash := "hpw",
    name := some "Ann", role := "USER", organizationId := "o1" }

/-- A concrete organization row for witnesses. -/
def orgW : Organization := { id := "o1", name := "Acme" }

/-- A concrete store for witnesses. -/
def dbW : Db := { users := [userW], orgs := [orgW] }

/-! ## Claim theorems -/

/-- **C1.** For every login request, `AuthService.login` returns an
`AuthResponse` if and only if a user with the given email exists in the
store and the bcrypt comparison of the submitted password against that
user's stored `passwordHash` succeeds; in every other case it throws
`UnauthorizedException`, and the user store is unchanged by `login`.
(The hypothesis that emails are pairwise distinct is the database's unique
constraint on `User.email`, which `findUnique({ where: { email } })`
relies on.) -/
theorem login_spec (env : Env) (dto : LoginDto) (db : Db)
    (hnd : (db.users.map User.email).Nodup) :
    (login env dto db).2 = db ∧
    ((∃ r, (login env dto db).1 = .ok r) ↔
      ∃ u ∈ db.users, u.email = dto.email ∧
        env.compare dto.password u.passwordHash = true) ∧
    ((¬ ∃ u ∈ db.users, u.email = dto.email ∧
        env.compare dto.password u.passwordHash = true) →
      (login env dto db).1 = .error (.unauthorized "Invalid credentials")) := by
  unfold login
  cases hfind : findUserByEmail db.users dto.email with
  | none =>
    rw [findUserByEmail_eq_none] at hfind
    dsimp only
    refine ⟨rfl, ?_, fun _ => rfl⟩
    constructor
    · rintro ⟨r, hr⟩; cases hr
    · rintro ⟨u, hu, he, -⟩; exact absurd he (hfind u hu)
  | some v =>
    have hv : v ∈ db.users := List.mem_of_find?_eq_some hfind
    have hve : v.email = dto.email := by
      have := List.find?_some hfind
      simpa using this
    dsimp only
    by_cases hc : env.compare dto.password v.passwordHash = true
    · rw [if_pos hc]
      exact ⟨rfl,
        ⟨fun _ => ⟨v, hv, hve, hc⟩, fun _ => ⟨authResponseFor env v, rfl⟩⟩,
        fun hn => absurd ⟨v, hv, hve, hc⟩ hn⟩
    · rw [if_neg hc]
      refine ⟨rfl, ?_, fun _ => rfl⟩
      constructor
      · rintro ⟨r, hr⟩; cases hr
      · rintro ⟨u, hu, he, hcmp⟩
        have h2 : findUserByEmail db.users dto.email = some u :=
          findUserByEmail_eq_some_of_mem hnd hu he
        rw [hfind] at h2
        cases h2
        exact (hc hcmp).elim

/-- Witness for C1 at a concrete store: the login of a present user with
the matching password succeeds. -/
theorem login_spec_witness :
    ∃ r, (login envW { email := "a@x.com", password := "pw" } dbW).1 =
      .ok r := by
  have h := login_spec envW { email := "a@x.com", password := "pw" } dbW
    (by simp [dbW, userW])
  exact h.2.1.mpr ⟨userW, by simp [dbW], rfl, by decide⟩

/-- **C8.** Login does not reveal whether a submitted email is registered:
a request whose email is unknown and a request whose email is known but
whose password fails the bcrypt comparison produce the *same* observable
outcome — an `UnauthorizedException` with the identical message
`'Invalid credentials'` — so the two failure causes are indistinguishable
to the caller. -/
theorem login_failure_indistinguishable (env : Env)
    (dto₁ dto₂ : LoginDto) (db₁ db₂ : Db)
    (h₁ : findUserByEmail db₁.users dto₁.email = none)
    (u : User)
    (h₂ : findUserByEmail db₂.users dto₂.email = some u)
    (hcmp : env.compare dto₂.password u.passwordHash = false) :
    (login env dto₁ db₁).1 = .error (.unauthorized "Invalid credentials") ∧
    (login env dto₂ db₂).1 = (login env dto₁ db₁).1 := by
  unfold login
  rw [h₁, h₂]
  dsimp only
  rw [if_neg (by simp [hcmp])]
  exact ⟨rfl, rfl⟩

/-- Witness for C8: an unknown email against the empty store and a wrong
password against the concrete store fail identically. -/
theorem login_failure_indistinguishable_witness :
    (login envW { email := "ghost@x.com", password := "pw" }
        { users := [], orgs := [] }).1 =
      .error (.unauthorized "Invalid credentials") ∧
    (login envW { email := "a@x.com", password := "wrong" } dbW).1 =
      (login envW { email := "ghost@x.com", password := "pw" }
        { users := [], orgs := [] }).1 :=
  login_failure_indistinguishable envW
    { email := "ghost@x.com", password := "pw" }
    { email := "a@x.com", password := "wrong" }
    { users := [], orgs := [] } dbW
    rfl userW (by decide) (by decide)

/-- **C6.** Role-based route guarding: the guard permits a request if and
only if the JWT resolves to an existing user (via `JwtStrategy.validate`,
i.e. `findUnique` on the payload's `sub`) and either the route declares no
required roles or the authenticated user's role equals one of the declared
roles; in particular a route marked `Roles('ADMIN')` is never reachable by
a user whose role is not `'ADMIN'`. -/
theorem guard_spec (db : Db) (p : JwtPayload)
    (roles : Option (List String)) :
    (guardPermits db p roles = true ↔
      ∃ u, validateJwtUser db p = some u ∧
        (roles = none ∨ ∃ rs, roles = some rs ∧ u.role ∈ rs)) ∧
    (∀ u, validateJwtUser db p = some u → u.role ≠ "ADMIN" →
      guardPermits db p (some ["ADMIN"]) = false) := by
  constructor
  · unfold guardPermits canActivate
    cases hval : validateJwtUser db p with
    | none =>
      constructor
      · intro h; exact absurd h (by simp)
      · rintro ⟨u, hu, -⟩; cases hu
    | some u =>
      cases roles with
      | none => simp
      | some rs =>
        simp only [List.any_eq_true, beq_iff_eq]
        constructor
        · rintro ⟨role, hrole, hr⟩
          exact ⟨u, rfl, .inr ⟨rs, rfl, by rw [hr]; exact hrole⟩⟩
        · rintro ⟨v, hv, hcase⟩
          cases hv
          rcases hcase with h | ⟨rs₂, hrs, hmem⟩
          · cases h
          · cases hrs
            exact ⟨_, hmem, rfl⟩
  · intro u hu hrole
    unfold guardPermits canActivate
    rw [hu]
    simpa using hrole

/-- Witness for C6: the concrete `USER`-role user is resolved from the
token yet denied on the `Roles('ADMIN')` route. -/
theorem guard_spec_witness :
    guardPermits dbW
      { sub := "u1", email := "a@x.com", role := "USER",
        organizationId := "o1" } (some ["ADMIN"]) = false :=
  (guard_spec dbW
    { sub := "u1", email := "a@x.com", role := "USER",
      organizationId := "o1" } (some ["ADMIN"])).2 userW (by decide)
    (by decide)

/-- **C7.** JWT issuance: whenever `register` or `login` succeeds for a
user, the returned `access_token` is signed over exactly the payload
`{sub = user.id, email = user.email, role = user.role,
organizationId = user.organizationId}`, and the `user` object in the
`AuthResponse` equals the stored user's `id`, `email`, `name`, `role` and
`organizationId` (for `register`, the stored user is the row the call just
created). -/
theorem auth_token_payload (env : Env) (fo fu : String) (rdto : RegisterDto)
    (ldto : LoginDto) (db : Db) :
    (∀ r, (login env ldto db).1 = .ok r →
      ∃ u ∈ db.users,
        r.access_token = env.sign
          { sub := u.id, email := u.email, role := u.role,
            organizationId := u.organizationId } ∧
        r.user = { id := u.id, email := u.email, name := u.name,
                   role := u.role, organizationId := u.organizationId }) ∧
    (∀ r, (register env fo fu rdto db).1 = .ok r →
      ∃ u ∈ (register env fo fu rdto db).2.users,
        r.access_token = env.sign
          { sub := u.id, email := u.email, role := u.role,
            organizationId := u.organizationId } ∧
        r.user = { id := u.id, email := u.email, name := u.name,
                   role := u.role, organizationId := u.organizationId }) := by
  constructor
  · intro r hr
    unfold login at hr
    cases hfind : findUserByEmail db.users ldto.email with
    | none => rw [hfind] at hr; cases hr
    | some v =>
      rw [hfind] at hr
      dsimp only at hr
      by_cases hc : env.compare ldto.password v.passwordHash = true
      · rw [if_pos hc] at hr
        cases hr
        exact ⟨v, List.mem_of_find?_eq_some hfind, rfl, rfl⟩
      · rw [if_neg hc] at hr; cases hr
  · unfold register
    cases hfind : findUserByEmail db.users rdto.email with
    | some v => intro r hr; cases hr
    | none =>
      dsimp only
      by_cases hid : truthy rdto.organizationId = true
      · rw [if_pos hid]
        cases hforg : findOrgById db.orgs (rdto.organizationId.getD "") with
        | none => intro r hr; cases hr
        | some o =>
          intro r hr
          dsimp only at hr ⊢
          cases hr
          exact ⟨_, by simp, rfl, rfl⟩
      · rw [if_neg hid]
        by_cases hname : truthy rdto.organizationName = true
        · rw [if_pos hname]
          intro r hr
          dsimp only at hr ⊢
          cases hr
          exact ⟨_, by simp, rfl, rfl⟩
        · rw [if_neg hname]
          intro r hr; cases hr

/-- Witness for C7: a successful concrete registration whose token is the
signature of exactly the created user's payload. -/
theorem auth_token_payload_witness :
    ∃ u ∈ (register envW "o2" "u2"
      { email := "b@x.com", password := "pw2", name := none,
        organizationId := none, organizationName := some "Beta" } dbW).2.users,
      (authResponseFor envW
        { id := "u2", email := "b@x.com", passwordHash := envW.hash "pw2",
          name := none, role := "ADMIN",
          organizationId := "o2" }).access_token = envW.sign
        { sub := u.id, email := u.email, role := u.role,
          organizationId := u.organizationId } ∧
      (authResponseFor envW
        { id := "u2", email := "b@x.com", passwordHash := envW.hash "pw2",
          name := none, role := "ADMIN",
          organizationId := "o2" }).user =
        { id := u.id, email := u.email, name := u.name, role := u.role,
          organizationId := u.organizationId } :=
  (auth_token_payload envW "o2" "u2"
    { email := "b@x.com", password := "pw2", name := none,
      organizationId := none, organizationName := some "Beta" }
    { email := "z", password := "z" } dbW).2
    (authResponseFor envW
      { id := "u2", email := "b@x.com", passwordHash := envW.hash "pw2",
        name := none, role := "ADMIN", organizationId := "o2" })
    (by rfl)

/-- **C2.** `AuthService.register` throws `ConflictException` if and only
if a user with the given email already exists; otherwise it throws
`BadRequestException` if and only if the supplied `organizationId` refers
to no existing organization, or neither `organizationId` nor
`organizationName` is supplied; on every error no user is created (the
store is unchanged), and in the remaining case a new user is created and
an `AuthResponse` is returned.  "Supplied" is the source's own truthiness
test: an absent field and the empty string count as not supplied. -/
theorem register_spec (env : Env) (fo fu : String) (dto : RegisterDto)
    (db : Db) :
    ((register env fo fu dto db).1 =
        .error (.conflict "User with this email already exists") ↔
      ∃ u ∈ db.users, u.email = dto.email) ∧
    ((¬ ∃ u ∈ db.users, u.email = dto.email) →
      ((∃ m, (register env fo fu dto db).1 = .error (.badRequest m)) ↔
        (truthy dto.organizationId = true ∧
          ¬ ∃ o ∈ db.orgs, o.id = dto.organizationId.getD "") ∨
        (truthy dto.organizationId = false ∧
          truthy dto.organizationName = false))) ∧
    (∀ e, (register env fo fu dto db).1 = .error e →
      (register env fo fu dto db).2 = db) ∧
    ((∃ r, (register env fo fu dto db).1 = .ok r) ↔
      (¬ ∃ u ∈ db.users, u.email = dto.email) ∧
      ¬ ((truthy dto.organizationId = true ∧
          ¬ ∃ o ∈ db.orgs, o.id = dto.organizationId.getD "") ∨
        (truthy dto.organizationId = false ∧
          truthy dto.organizationName = false))) ∧
    ((∃ r, (register env fo fu dto db).1 = .ok r) →
      ∃ u, (register env fo fu dto db).2.users = db.users ++ [u] ∧
        u.email = dto.email) := by
  unfold register
  cases hfind : findUserByEmail db.users dto.email with
  | some v =>
    have hex : ∃ u ∈ db.users, u.email = dto.email := by
      refine ⟨v, List.mem_of_find?_eq_some hfind, ?_⟩
      have := List.find?_some hfind
      simpa using this
    refine ⟨⟨fun _ => hex, fun _ => rfl⟩, ?_, fun e he => rfl, ?_, ?_⟩
    · intro hn; exact (hn hex).elim
    · constructor
      · rintro ⟨r, hr⟩; cases hr
      · rintro ⟨hn, -⟩; exact (hn hex).elim
    · rintro ⟨r, hr⟩; cases hr
  | none =>
    rw [findUserByEmail_eq_none] at hfind
    have hnex : ¬ ∃ u ∈ db.users, u.email = dto.email := by
      rintro ⟨u, hu, he⟩; exact hfind u hu he
    dsimp only
    by_cases hid : truthy dto.organizationId = true
    · rw [if_pos hid]
      cases hforg : findOrgById db.orgs (dto.organizationId.getD "") with
      | none =>
        have hno : ¬ ∃ o ∈ db.orgs, o.id = dto.organizationId.getD "" := by
          unfold findOrgById at hforg
          rw [List.find?_eq_none] at hforg
          rintro ⟨o, ho, hoid⟩
          exact hforg o ho (by simp [hoid])
        refine ⟨?_, fun _ => ?_, fun e he => rfl, ?_, ?_⟩
        · constructor
          · intro h; exact absurd h (by simp)
          · intro h; exact (hnex h).elim
        · exact ⟨fun _ => .inl ⟨hid, hno⟩, fun _ => ⟨_, rfl⟩⟩
        · constructor
          · rintro ⟨r, hr⟩; cases hr
          · rintro ⟨-, hn2⟩; exact (hn2 (.inl ⟨hid, hno⟩)).elim
        · rintro ⟨r, hr⟩; cases hr
      | some o =>
        have hyes : ∃ o2 ∈ db.orgs, o2.id = dto.organizationId.getD "" := by
          refine ⟨o, List.mem_of_find?_eq_some hforg, ?_⟩
          have := List.find?_some hforg
          simpa using this
        dsimp only
        refine ⟨?_, fun _ => ?_, ?_, ?_, ?_⟩
        · constructor
          · intro h; exact absurd h (by simp)
          · intro h; exact (hnex h).elim
        · constructor
          · rintro ⟨m, hm⟩; cases hm
          · rintro (⟨-, hno⟩ | ⟨hf, -⟩)
            · exact (hno hyes).elim
            · rw [hid] at hf; cases hf
        · intro e he; cases he
        · constructor
          · intro _
            refine ⟨hnex, ?_⟩
            rintro (⟨-, hno⟩ | ⟨hf, -⟩)
            · exact hno hyes
            · rw [hid] at hf; cases hf
          · intro _; exact ⟨_, rfl⟩
        · intro _; exact ⟨_, rfl, rfl⟩
    · rw [if_neg hid]
      have hidf : truthy dto.organizationId = false := by
        simpa using hid
      by_cases hname : truthy dto.organizationName = true
      · rw [if_pos hname]
        dsimp only
        refine ⟨?_, fun _ => ?_, ?_, ?_, ?_⟩
        · constructor
          · intro h; exact absurd h (by simp)
          · intro h; exact (hnex h).elim
        · constructor
          · rintro ⟨m, hm⟩; cases hm
          · rintro (⟨htr, -⟩ | ⟨-, hnm⟩)
            · rw [hidf] at htr; cases htr
            · rw [hname] at hnm; cases hnm
        · intro e he; cases he
        · constructor
          · intro _
            refine ⟨hnex, ?_⟩
            rintro (⟨htr, -⟩ | ⟨-, hnm⟩)
            · rw [hidf] at htr; cases htr
            · rw [hname] at hnm; cases hnm
          · intro _; exact ⟨_, rfl⟩
        · intro _; exact ⟨_, rfl, rfl⟩
      · rw [if_neg hname]
        have hnamef : truthy dto.organizationName = false := by
          simpa using hname
        refine ⟨?_, fun _ => ?_, fun e he => rfl, ?_, ?_⟩
        · constructor
          · intro h; exact absurd h (by simp)
          · intro h; exact (hnex h).elim
        · exact ⟨fun _ => .inr ⟨hidf, hnamef⟩, fun _ => ⟨_, rfl⟩⟩
        · constructor
          · rintro ⟨r, hr⟩; cases hr
          · rintro ⟨-, hn2⟩; exact (hn2 (.inr ⟨hidf, hnamef⟩)).elim
        · rintro ⟨r, hr⟩; cases hr

/-- Witness for C2: registering a fresh email into an existing
organization succeeds and appends exactly one user with that email. -/
theorem register_spec_witness :
    ∃ u, (register envW "oX" "u9"
      { email := "new@x.com", password := "pw", name := none,
        organizationId := some "o1", organizationName := none }
      dbW).2.users = dbW.users ++ [u] ∧ u.email = "new@x.com" := by
  have h := (register_spec envW "oX" "u9"
    { email := "new@x.com", password := "pw", name := none,
      organizationId := some "o1", organizationName := none } dbW).2.2.2.2
  exact h ⟨_, by rfl⟩

/-- **C4.** `deleteOrganization` throws `NotFoundException` if no
organization with the id exists; throws `ConflictException` if it exists
and at least one user references it; deletes the organization and returns
the confirmation message if and only if it exists and has zero users; and
on every error both stores are unchanged. -/
theorem deleteOrganization_spec (id : String) (db : Db) :
    ((¬ ∃ o ∈ db.orgs, o.id = id) →
      deleteOrganization id db =
        (.error (.notFound "Organization not found"), db)) ∧
    ((∃ o ∈ db.orgs, o.id = id) →
      (∃ u ∈ db.users, u.organizationId = id) →
      deleteOrganization id db =
        (.error (.conflict
          "Cannot delete organization with existing users. Please remove all users first."),
         db)) ∧
    ((∃ r, (deleteOrganization id db).1 = .ok r) ↔
      (∃ o ∈ db.orgs, o.id = id) ∧
        ¬ ∃ u ∈ db.users, u.organizationId = id) ∧
    ((∃ r, (deleteOrganization id db).1 = .ok r) →
      (deleteOrganization id db).1 = .ok "Organization deleted successfully" ∧
      (deleteOrganization id db).2.users = db.users ∧
      (∀ o ∈ (deleteOrganization id db).2.orgs, o.id ≠ id ∧ o ∈ db.orgs) ∧
      (∀ o ∈ db.orgs, o.id ≠ id → o ∈ (deleteOrganization id db).2.orgs)) ∧
    (∀ e, (deleteOrganization id db).1 = .error e →
      (deleteOrganization id db).2 = db) := by
  unfold deleteOrganization
  cases hfind : findOrgById db.orgs id with
  | none =>
    have hno : ¬ ∃ o ∈ db.orgs, o.id = id := by
      unfold findOrgById at hfind
      rw [List.find?_eq_none] at hfind
      rintro ⟨o, ho, hoid⟩
      exact hfind o ho (by simp [hoid])
    refine ⟨fun _ => rfl, fun h => (hno h).elim, ?_, ?_, fun e he => rfl⟩
    · constructor
      · rintro ⟨r, hr⟩; cases hr
      · rintro ⟨h, -⟩; exact (hno h).elim
    · rintro ⟨r, hr⟩; cases hr
  | some o =>
    have hyes : ∃ o2 ∈ db.orgs, o2.id = id := by
      refine ⟨o, List.mem_of_find?_eq_some hfind, ?_⟩
      have := List.find?_some hfind
      simpa using this
    dsimp only
    by_cases husers : ∃ u ∈ db.users, u.organizationId = id
    · have hcnt : db.users.countP (fun u => u.organizationId == id) > 0 := by
        rcases husers with ⟨u, hu, huid⟩
        exact List.countP_pos_iff.mpr ⟨u, hu, by simp [huid]⟩
      rw [if_pos hcnt]
      refine ⟨fun h => (h hyes).elim, fun _ _ => rfl, ?_, ?_,
        fun e he => rfl⟩
      · constructor
        · rintro ⟨r, hr⟩; cases hr
        · rintro ⟨-, hn⟩; exact (hn husers).elim
      · rintro ⟨r, hr⟩; cases hr
    · have hcnt : ¬ db.users.countP (fun u => u.organizationId == id) > 0 := by
        intro hpos
        rcases List.countP_pos_iff.mp hpos with ⟨u, hu, huid⟩
        exact husers ⟨u, hu, by simpa using huid⟩
      rw [if_neg hcnt]
      refine ⟨?_, fun _ h => (husers h).elim, ?_, ?_, ?_⟩
      · intro h; exact (h hyes).elim
      · exact ⟨fun _ => ⟨hyes, husers⟩, fun _ => ⟨_, rfl⟩⟩
      · intro _
        refine ⟨rfl, rfl, ?_, ?_⟩
        · intro o2 ho2
          rw [List.mem_filter] at ho2
          exact ⟨by simpa using ho2.2, ho2.1⟩
        · intro o2 ho2 hne
          rw [List.mem_filter]
          exact ⟨ho2, by simpa using hne⟩
      · intro e he; cases he

/-- Witness for C4: deleting the user-free organization `"oEmpty"` from a
concrete store succeeds while deleting the populated `"o1"` is refused. -/
theorem deleteOrganization_spec_witness :
    ∃ r, (deleteOrganization "oEmpty"
      { users := [userW],
        orgs := [orgW, { id := "oEmpty", name := "Shell" }] }).1 =
      .ok r := by
  have h := (deleteOrganization_spec "oEmpty"
    { users := [userW],
      orgs := [orgW, { id := "oEmpty", name := "Shell" }] }).2.2.1
  refine h.mpr ⟨⟨{ id := "oEmpty", name := "Shell" }, by simp, rfl⟩, ?_⟩
  rintro ⟨u, hu, huid⟩
  simp only [List.mem_singleton] at hu
  rw [hu] at huid
  exact absurd huid (by decide)

/-- In a list of users with pairwise-distinct ids, exactly one user
carries the id of a member. -/
lemma countP_id_eq_one {l : List User} {uid : String}
    (hnd : (l.map User.id).Nodup) {u : User} (hu : u ∈ l)
    (hid : u.id = uid) : l.countP (fun v => v.id == uid) = 1 := by
  induction l with
  | nil => cases hu
  | cons a t ih =>
    rw [List.map_cons, List.nodup_cons] at hnd
    rw [List.countP_cons]
    rcases List.mem_cons.mp hu with rfl | hut
    · have h0 : t.countP (fun v => v.id == uid) = 0 := by
        rw [List.countP_eq_zero]
        intro v hv hvid
        have h3 : v.id = uid := by simpa using hvid
        exact hnd.1 (List.mem_map.mpr ⟨v, hv, h3.trans hid.symm⟩)
      simp [h0, hid]
    · have hane : ¬ (a.id == uid) = true := by
        intro ha
        have h3 : a.id = uid := by simpa using ha
        exact hnd.1 (by
          rw [h3]
          exact List.mem_map.mpr ⟨u, hut, hid⟩)
      rw [ih hnd.2 hut]
      simp [hane]

/-- **C9.** Frame property of `createOrganization`: called without
`createdByUserId`, no user record is modified and the returned `userCount`
is 0; called with an existing `createdByUserId`, on success exactly that
one user is modified and only in its `role` (set to `'ADMIN'`) and
`organizationId` (set to the new organization's id) — every other user and
every other field of that user is unchanged — and the returned `userCount`
is the number of users of the new organization after the reassignment,
namely 1.  Hypotheses: user ids are pairwise distinct and non-empty
(Prisma cuids), and no existing user references the freshly generated
organization id. -/
theorem createOrganization_frame (fo : String)
    (dto : CreateOrganizationDto) (db : Db)
    (hids : (db.users.map User.id).Nodup)
    (hfresh : ∀ u ∈ db.users, u.organizationId ≠ fo)
    (hne : ∀ u ∈ db.users, u.id ≠ "") :
    (dto.createdByUserId = none →
      (createOrganization fo dto db).2.users = db.users ∧
      ∀ r, (createOrganization fo dto db).1 = .ok r → r.userCount = 0) ∧
    (∀ uid u₀, dto.createdByUserId = some uid → u₀ ∈ db.users →
      u₀.id = uid →
      ∀ r, (createOrganization fo dto db).1 = .ok r →
        r.userCount = 1 ∧
        (createOrganization fo dto db).2.users.length =
          db.users.length ∧
        (∀ i (hi : i < db.users.length)
            (hi2 : i < (createOrganization fo dto db).2.users.length),
          ((db.users[i]).id ≠ uid →
            (createOrganization fo dto db).2.users[i] = db.users[i]) ∧
          ((db.users[i]).id = uid →
            ((createOrganization fo dto db).2.users[i]).role = "ADMIN" ∧
            ((createOrganization fo dto db).2.users[i]).organizationId
              = fo ∧
            ((createOrganization fo dto db).2.users[i]).id
              = (db.users[i]).id ∧
            ((createOrganization fo dto db).2.users[i]).email
              = (db.users[i]).email ∧
            ((createOrganization fo dto db).2.users[i]).passwordHash
              = (db.users[i]).passwordHash ∧
            ((createOrganization fo dto db).2.users[i]).name
              = (db.users[i]).name))) := by
  unfold createOrganization
  cases hconf : findOrgByName db.orgs dto.name with
  | some o =>
    constructor
    · intro hnone
      exact ⟨rfl, fun r hr => by cases hr⟩
    · intro uid u₀ hsome hmem hid r hr
      cases hr
  | none =>
    dsimp only
    constructor
    · intro hnone
      rw [hnone]
      dsimp only [truthy]
      rw [if_neg (by simp)]
      refine ⟨rfl, ?_⟩
      intro r hr
      cases hr
      rw [List.countP_eq_zero]
      intro u hu
      simpa using hfresh u hu
    · intro uid u₀ hsome hmem hid r hr
      have htr : truthy (some uid) = true := by
        have huidne : uid ≠ "" := hid ▸ hne u₀ hmem
        simpa [truthy] using huidne
      cases hfu : findUserById db.users uid with
      | none =>
        unfold findUserById at hfu
        rw [List.find?_eq_none] at hfu
        exact absurd (by simp [hid]) (hfu u₀ hmem)
      | some w =>
        rw [hsome] at hr ⊢
        rw [if_pos htr] at hr ⊢
        rw [Option.getD_some] at hr ⊢
        rw [hfu] at hr ⊢
        dsimp only at hr ⊢
        cases hr
        refine ⟨?_, by simp, ?_⟩
        · dsimp only
          rw [List.countP_map]
          have hcongr : ∀ u ∈ db.users,
              (((fun v => v.organizationId == fo) ∘ fun u =>
                if u.id == uid then
                  { u with role := "ADMIN", organizationId := fo }
                else u) u = true ↔ (fun v => v.id == uid) u = true) := by
            intro u hu
            by_cases h : u.id = uid
            · simp [Function.comp, h]
            · have h2 : ¬ (u.id == uid) = true := by simpa using h
              simp only [Function.comp, if_neg h2, beq_iff_eq]
              simp [hfresh u hu, h]
          rw [List.countP_congr hcongr]
          exact countP_id_eq_one hids hmem hid
        · intro i hi hi2
          constructor
          · intro hnid
            rw [List.getElem_map]
            rw [if_neg (by simpa using hnid)]
          · intro hisid
            rw [List.getElem_map, if_pos (by simpa using hisid)]
            exact ⟨rfl, rfl, rfl, rfl, rfl, rfl⟩

/-- Witness for C9: creating an organization with the concrete user as
creator succeeds with `userCount = 1` and leaves the user table the same
length. -/
theorem createOrganization_frame_witness :
    ({ id := "o2", name := "Beta", userCount := 1 } :
        OrganizationResponse).userCount = 1 ∧
    (createOrganization "o2"
      { name := "Beta", createdByUserId := some "u1" } dbW).2.users.length =
      dbW.users.length := by
  have h := (createOrganization_frame "o2"
    { name := "Beta", createdByUserId := some "u1" } dbW
    (by simp [dbW, userW]) (by decide) (by decide)).2
    "u1" userW rfl (by simp [dbW]) rfl
    { id := "o2", name := "Beta", userCount := 1 } (by rfl)
  exact ⟨h.1, h.2.1⟩

/-! ## Preservation lemmas for the invariant claims -/

/-- `register` preserves referential integrity: it only creates a user
after verifying (or freshly creating) the referenced organization. -/
lemma refIntegrity_register (env : Env) (fo fu : String)
    (dto : RegisterDto) (db : Db) (h : RefIntegrity db) :
    RefIntegrity (register env fo fu dto db).2 := by
  unfold register
  cases hfind : findUserByEmail db.users dto.email with
  | some v => exact h
  | none =>
    dsimp only
    by_cases hid : truthy dto.organizationId = true
    · rw [if_pos hid]
      cases hforg : findOrgById db.orgs (dto.organizationId.getD "") with
      | none => exact h
      | some o =>
        have ho : o ∈ db.orgs := List.mem_of_find?_eq_some hforg
        have hoid : o.id = dto.organizationId.getD "" := by
          have := List.find?_some hforg
          simpa using this
        intro u hu
        rcases List.mem_append.mp hu with hu | hu
        · exact h u hu
        · rw [List.mem_singleton] at hu
          rw [hu]
          exact ⟨o, ho, hoid⟩
    · rw [if_neg hid]
      by_cases hname : truthy dto.organizationName = true
      · rw [if_pos hname]
        intro u hu
        rcases List.mem_append.mp hu with hu | hu
        · rcases h u hu with ⟨o, ho, hoid⟩
          exact ⟨o, List.mem_append.mpr (.inl ho), hoid⟩
        · rw [List.mem_singleton] at hu
          rw [hu]
          exact ⟨_, List.mem_append.mpr (.inr (List.mem_singleton.mpr rfl)),
            rfl⟩
      · rw [if_neg hname]
        exact h

/-- `createOrganization` preserves referential integrity: it only appends
an organization, and the only user it touches is reassigned to the
appended organization. -/
lemma refIntegrity_create (fo : String) (dto : CreateOrganizationDto)
    (db : Db) (h : RefIntegrity db) :
    RefIntegrity (createOrganization fo dto db).2 := by
  unfold createOrganization
  cases hconf : findOrgByName db.orgs dto.name with
  | some o => exact h
  | none =>
    dsimp only
    by_cases hcr : truthy dto.createdByUserId = true
    · rw [if_pos hcr]
      cases hfu : findUserById db.users (dto.createdByUserId.getD "") with
      | none => exact h
      | some w =>
        intro u hu
        rcases List.mem_map.mp hu with ⟨v, hv, hvu⟩
        by_cases hvid : (v.id == dto.createdByUserId.getD "") = true
        · rw [← hvu, if_pos hvid]
          exact ⟨_, List.mem_append.mpr (.inr (List.mem_singleton.mpr rfl)),
            rfl⟩
        · rw [← hvu, if_neg hvid]
          rcases h v hv with ⟨o, ho, hoid⟩
          exact ⟨o, List.mem_append.mpr (.inl ho), hoid⟩
    · rw [if_neg hcr]
      intro u hu
      rcases h u hu with ⟨o, ho, hoid⟩
      exact ⟨o, List.mem_append.mpr (.inl ho), hoid⟩

/-- The `update` write preserves every organization's id, so membership of
an id among the organizations is unchanged. -/
lemma applyOrgUpdate_preserves_id {orgs : List Organization} (tid : String)
    (nm : Option String) {o : Organization} (ho : o ∈ orgs) :
    ∃ o2 ∈ applyOrgUpdate orgs tid nm, o2.id = o.id := by
  unfold applyOrgUpdate
  by_cases h : (o.id == tid) = true
  · exact ⟨_, List.mem_map.mpr ⟨o, ho, rfl⟩, by rw [if_pos h]⟩
  · exact ⟨_, List.mem_map.mpr ⟨o, ho, rfl⟩, by rw [if_neg h]⟩

/-- `updateOrganization` preserves referential integrity: it renames at
most, never removes an organization or touches a user. -/
lemma refIntegrity_update (tid : String) (dto : UpdateOrganizationDto)
    (db : Db) (h : RefIntegrity db) :
    RefIntegrity (updateOrganization tid dto db).2 := by
  unfold updateOrganization
  cases hfind : findOrgById db.orgs tid with
  | none => exact h
  | some org =>
    dsimp only
    have hupd : RefIntegrity
        { db with orgs := applyOrgUpdate db.orgs tid dto.name } := by
      intro u hu
      rcases h u hu with ⟨o, ho, hoid⟩
      rcases applyOrgUpdate_preserves_id tid dto.name ho
        with ⟨o2, ho2, hid2⟩
      exact ⟨o2, ho2, hid2.trans hoid⟩
    by_cases hc : (truthy dto.name &&
        !(dto.name.getD "" == org.name)) = true
    · rw [if_pos hc]
      cases db.orgs.find? (fun o =>
          o.name == dto.name.getD "" && !(o.id == tid)) with
      | some o2 => exact h
      | none => exact hupd
    · rw [if_neg hc]
      exact hupd

/-- `deleteOrganization` preserves referential integrity: it refuses to
delete an organization that still has users. -/
lemma refIntegrity_delete (tid : String) (db : Db) (h : RefIntegrity db) :
    RefIntegrity (deleteOrganization tid db).2 := by
  unfold deleteOrganization
  cases hfind : findOrgById db.orgs tid with
  | none => exact h
  | some org =>
    dsimp only
    by_cases hcnt : db.users.countP (fun u => u.organizationId == tid) > 0
    · rw [if_pos hcnt]
      exact h
    · rw [if_neg hcnt]
      have hzero : ∀ u ∈ db.users, u.organizationId ≠ tid := by
        intro u hu heq
        exact hcnt (List.countP_pos_iff.mpr ⟨u, hu, by simp [heq]⟩)
      intro u hu
      rcases h u hu with ⟨o, ho, hoid⟩
      refine ⟨o, List.mem_filter.mpr ⟨ho, ?_⟩, hoid⟩
      have : o.id ≠ tid := by
        rw [hoid]
        exact hzero u hu
      simpa using this

/-- **C5.** Referential integrity of the one-to-many user/organization
relation is an invariant: from any state in which every user's
`organizationId` refers to an existing organization, any sequence of
`register`, `createOrganization`, `updateOrganization` and
`deleteOrganization` calls leads only to states with the same property. -/
theorem referential_integrity_invariant (env : Env) (db db' : Db)
    (h : Reachable env db db') (hri : RefIntegrity db) :
    RefIntegrity db' := by
  induction h with
  | refl => exact hri
  | tail hsteps hstep ih =>
    cases hstep with
    | reg fo fu dto db2 horg huser =>
      exact refIntegrity_register env fo fu dto _ ih
    | create fo dto db2 horg => exact refIntegrity_create fo dto _ ih
    | update tid dto db2 => exact refIntegrity_update tid dto _ ih
    | del tid db2 => exact refIntegrity_delete tid _ ih

/-- Witness for C5: one concrete `createOrganization` step from the empty
store, whose resulting state satisfies referential integrity. -/
theorem referential_integrity_invariant_witness :
    RefIntegrity (createOrganization "o1"
      { name := "Acme", createdByUserId := none }
      { users := [], orgs := [] }).2 :=
  referential_integrity_invariant envW { users := [], orgs := [] } _
    (Relation.ReflTransGen.single
      (Step.create "o1" { name := "Acme", createdByUserId := none }
        { users := [], orgs := [] } (by simp)))
    (by intro u hu; cases hu)

/-- A map that fixes every member of a list is the identity on it. -/
lemma list_map_eq_self {α : Type} {l : List α} {f : α → α}
    (h : ∀ a ∈ l, f a = a) : l.map f = l := by
  induction l with
  | nil => rfl
  | cons a t ih =>
    rw [List.map_cons, h a (List.mem_cons_self a t),
      ih (fun b hb => h b (List.mem_cons_of_mem a hb))]

/-- When `register` is called with a truthy `organizationId` it never
touches the `Organization` table. -/
lemma register_orgs_eq_of_truthy (env : Env) (fo fu : String)
    (dto : RegisterDto) (db : Db)
    (h : truthy dto.organizationId = true) :
    (register env fo fu dto db).2.orgs = db.orgs := by
  unfold register
  cases hfind : findUserByEmail db.users dto.email with
  | some v => rfl
  | none =>
    dsimp only
    rw [if_pos h]
    cases hforg : findOrgById db.orgs (dto.organizationId.getD "") with
    | none => rfl
    | some o => rfl

/-- Appending an organization with a fresh id and an unused name keeps
both ids and names pairwise distinct. -/
lemma orgs_append_inv {orgs : List Organization} {fo nm : String}
    (hfresh : fo ∉ orgs.map Organization.id)
    (hnm : ∀ o ∈ orgs, o.name ≠ nm)
    (h1 : (orgs.map Organization.id).Nodup)
    (h2 : orgs.Pairwise (fun a b => a.name ≠ b.name)) :
    ((orgs ++ [Organization.mk fo nm]).map Organization.id).Nodup ∧
    (orgs ++ [Organization.mk fo nm]).Pairwise
      (fun a b => a.name ≠ b.name) := by
  constructor
  · rw [List.map_append, List.nodup_append]
    refine ⟨h1, by simp, ?_⟩
    intro a ha hb
    simp only [List.map_cons, List.map_nil, List.mem_cons,
      List.not_mem_nil, or_false] at hb
    rw [hb] at ha
    exact hfresh ha
  · rw [List.pairwise_append]
    refine ⟨h2, by simp, ?_⟩
    intro a ha b hb
    rw [List.mem_singleton] at hb
    rw [hb]
    exact hnm a ha

/-- The `update` write never changes any organization's id. -/
lemma applyOrgUpdate_map_id (orgs : List Organization) (tid : String)
    (nm : Option String) :
    (applyOrgUpdate orgs tid nm).map Organization.id =
      orgs.map Organization.id := by
  unfold applyOrgUpdate
  rw [List.map_map]
  congr 1
  funext o
  by_cases h : (o.id == tid) = true
  · simp only [Function.comp_apply, if_pos h]
  · simp only [Function.comp_apply, if_neg h]

/-- An update to an unused, conflict-checked name keeps names pairwise
distinct (given distinct ids). -/
lemma orgs_rename_inv {orgs : List Organization} {tid nm : String}
    (h1 : (orgs.map Organization.id).Nodup)
    (h2 : orgs.Pairwise (fun a b => a.name ≠ b.name))
    (hconf : ∀ o ∈ orgs, o.name = nm → o.id = tid) :
    ((applyOrgUpdate orgs tid (some nm)).map Organization.id).Nodup ∧
    (applyOrgUpdate orgs tid (some nm)).Pairwise
      (fun a b => a.name ≠ b.name) := by
  refine ⟨by rw [applyOrgUpdate_map_id]; exact h1, ?_⟩
  unfold applyOrgUpdate
  rw [List.pairwise_map]
  refine List.Pairwise.imp_of_mem ?_ h2
  intro a b ha hb hR
  by_cases ha2 : (a.id == tid) = true
  · by_cases hb2 : (b.id == tid) = true
    · have hab : a = b := List.inj_on_of_nodup_map h1 ha hb
        (by rw [show a.id = tid by simpa using ha2,
          show b.id = tid by simpa using hb2])
      exact absurd rfl (hab ▸ hR)
    · rw [if_pos ha2, if_neg hb2]
      intro hnab
      have hbn : b.name = nm := by simpa using hnab.symm
      exact hb2 (by simp [hconf b hb hbn])
  · by_cases hb2 : (b.id == tid) = true
    · rw [if_neg ha2, if_pos hb2]
      intro hnab
      have han : a.name = nm := by simpa using hnab
      exact ha2 (by simp [hconf a ha han])
    · rw [if_neg ha2, if_neg hb2]
      exact hR

/-- `createOrganization` keeps ids and names pairwise distinct (its
name-conflict pre-check covers every existing organization). -/
lemma orgInv_create (fo : String) (dto : CreateOrganizationDto) (db : Db)
    (horg : fo ∉ db.orgs.map Organization.id)
    (h1 : OrgIdsDistinct db) (h2 : OrgNamesDistinct db) :
    OrgIdsDistinct (createOrganization fo dto db).2 ∧
    OrgNamesDistinct (createOrganization fo dto db).2 := by
  unfold createOrganization
  cases hconf : findOrgByName db.orgs dto.name with
  | some o => exact ⟨h1, h2⟩
  | none =>
    have hnm : ∀ o ∈ db.orgs, o.name ≠ dto.name := by
      unfold findOrgByName at hconf
      rw [List.find?_eq_none] at hconf
      intro o ho
      simpa using hconf o ho
    dsimp only
    by_cases hcr : truthy dto.createdByUserId = true
    · rw [if_pos hcr]
      cases hfu : findUserById db.users (dto.createdByUserId.getD "") with
      | none => exact ⟨h1, h2⟩
      | some w => exact orgs_append_inv horg hnm h1 h2
    · rw [if_neg hcr]
      exact orgs_append_inv horg hnm h1 h2

/-- `updateOrganization` with an absent or non-empty name keeps ids and
names pairwise distinct. -/
lemma orgInv_update_safe (tid : String) (dto : UpdateOrganizationDto)
    (db : Db) (hsafe : dto.name = none ∨ truthy dto.name = true)
    (h1 : OrgIdsDistinct db) (h2 : OrgNamesDistinct db) :
    OrgIdsDistinct (updateOrganization tid dto db).2 ∧
    OrgNamesDistinct (updateOrganization tid dto db).2 := by
  unfold updateOrganization
  cases hfind : findOrgById db.orgs tid with
  | none => exact ⟨h1, h2⟩
  | some org =>
    have horgmem : org ∈ db.orgs := List.mem_of_find?_eq_some hfind
    have horgid : org.id = tid := by
      have := List.find?_some hfind
      simpa using this
    dsimp only
    cases hnm : dto.name with
    | none =>
      rw [if_neg (by simp [truthy])]
      have hid : applyOrgUpdate db.orgs tid none = db.orgs := by
        unfold applyOrgUpdate
        apply list_map_eq_self
        intro o ho
        by_cases h : (o.id == tid) = true
        · rw [if_pos h]
          rfl
        · rw [if_neg h]
      rw [hid]
      exact ⟨h1, h2⟩
    | some nm =>
      have htr : truthy (some nm) = true := by
        rcases hsafe with h | h
        · rw [hnm] at h; cases h
        · rw [hnm] at h; exact h
      by_cases hneq : nm = org.name
      · rw [if_neg (by simp [hneq])]
        have hid : applyOrgUpdate db.orgs tid (some nm) = db.orgs := by
          unfold applyOrgUpdate
          apply list_map_eq_self
          intro o ho
          by_cases h : (o.id == tid) = true
          · have hoeq : o = org := List.inj_on_of_nodup_map h1 ho horgmem
              (by rw [show o.id = tid by simpa using h, horgid])
            rw [if_pos h, hoeq, hneq]
            rfl
          · rw [if_neg h]
        rw [hid]
        exact ⟨h1, h2⟩
      · rw [if_pos (by simp [htr, hneq])]
        simp only [Option.getD_some]
        cases hc2 : db.orgs.find? (fun o =>
            o.name == nm && !(o.id == tid)) with
        | some o2 => exact ⟨h1, h2⟩
        | none =>
          have hconf : ∀ o ∈ db.orgs, o.name = nm → o.id = tid := by
            rw [List.find?_eq_none] at hc2
            intro o ho hon
            have := hc2 o ho
            simp only [hon, beq_self_eq_true, Bool.true_and,
              Bool.not_eq_true, Bool.not_eq_false] at this
            simpa using this
          exact orgs_rename_inv h1 h2 hconf

/-- `deleteOrganization` keeps ids and names pairwise distinct (it only
removes rows). -/
lemma orgInv_delete (tid : String) (db : Db)
    (h1 : OrgIdsDistinct db) (h2 : OrgNamesDistinct db) :
    OrgIdsDistinct (deleteOrganization tid db).2 ∧
    OrgNamesDistinct (deleteOrganization tid db).2 := by
  unfold deleteOrganization
  cases hfind : findOrgById db.orgs tid with
  | none => exact ⟨h1, h2⟩
  | some org =>
    dsimp only
    by_cases hcnt : db.users.countP (fun u => u.organizationId == tid) > 0
    · rw [if_pos hcnt]
      exact ⟨h1, h2⟩
    · rw [if_neg hcnt]
      constructor
      · exact List.Nodup.sublist
          ((List.filter_sublist _).map Organization.id) h1
      · exact List.Pairwise.sublist (List.filter_sublist _) h2

/-- **C3 (amended).** Organization-name uniqueness is an invariant of the
restricted system: starting from a state whose organization names are
pairwise distinct (and whose primary keys are distinct, as the database
guarantees), any sequence of `register`-with-`organizationId`,
`createOrganization`, `updateOrganization`-with-absent-or-non-empty-name,
and `deleteOrganization` calls preserves pairwise-distinct names.  (The
unrestricted claim is refuted by
`org_name_uniqueness_counterexample`.) -/
theorem org_name_uniqueness_amended (env : Env) (db db' : Db)
    (h : ReachableSafe env db db')
    (hids : OrgIdsDistinct db) (hnames : OrgNamesDistinct db) :
    OrgNamesDistinct db' := by
  suffices hinv : OrgIdsDistinct db' ∧ OrgNamesDistinct db' from hinv.2
  induction h with
  | refl => exact ⟨hids, hnames⟩
  | @tail b c hsteps hstep ih =>
    cases hstep with
    | reg fo fu dto db2 horg huser hid =>
      have he := register_orgs_eq_of_truthy env fo fu dto b hid
      constructor
      · unfold OrgIdsDistinct
        rw [he]
        exact ih.1
      · unfold OrgNamesDistinct
        rw [he]
        exact ih.2
    | create fo dto db2 horg => exact orgInv_create fo dto b horg ih.1 ih.2
    | update tid dto db2 hname =>
      exact orgInv_update_safe tid dto b hname ih.1 ih.2
    | del tid db2 => exact orgInv_delete tid b ih.1 ih.2

/-- Witness for the amended C3: a concrete one-step safe run from the
empty store ends with pairwise-distinct names. -/
theorem org_name_uniqueness_amended_witness :
    OrgNamesDistinct (createOrganization "o1"
      { name := "Acme", createdByUserId := none }
      { users := [], orgs := [] }).2 :=
  org_name_uniqueness_amended envW { users := [], orgs := [] } _
    (Relation.ReflTransGen.single
      (StepSafe.create "o1" { name := "Acme", createdByUserId := none }
        { users := [], orgs := [] } (by simp)))
    (by simp [OrgIdsDistinct]) (by simp [OrgNamesDistinct])

/-- The empty store, start of the counterexample runs. -/
def db0 : Db := { users := [], orgs := [] }

/-- First counterexample run, step 1: create the organization `"Acme"`. -/
def dbA : Db := (createOrganization "o1"
  { name := "Acme", createdByUserId := none } db0).2

/-- First counterexample run, step 2: `register` with
`organizationName = "Acme"` — the path with no name-uniqueness
pre-check — creating a second organization named `"Acme"`. -/
def dbDupReg : Db := (register envW "o2" "u1"
  { email := "a@x.com", password := "p", name := none,
    organizationId := none, organizationName := some "Acme" } dbA).2

/-- Second counterexample run: create an organization with the empty name,
create `"X"`, then update `"X"` to the empty name — the falsy guard
`if (updateData.name && ...)` skips the conflict check. -/
def dbE1 : Db := (createOrganization "e1"
  { name := "", createdByUserId := none } db0).2

/-- Second run, step 2. -/
def dbE2 : Db := (createOrganization "e2"
  { name := "X", createdByUserId := none } dbE1).2

/-- Second run, step 3: the empty-string rename that duplicates `""`. -/
def dbDupUpd : Db := (updateOrganization "e2" { name := some "" } dbE2).2

/-- **C3 (counterexample).** The claim as stated is false: from the empty
store — whose organization names are trivially pairwise distinct — a
two-step run (`createOrganization "Acme"`, then `register` with
`organizationName = "Acme"`) reaches a state with two distinct
organizations both named `"Acme"`, and a three-step run using the
empty-string rename reaches a state with two distinct organizations both
named `""`. -/
theorem org_name_uniqueness_counterexample :
    OrgNamesDistinct db0 ∧
    (Reachable envW db0 dbDupReg ∧ ¬ OrgNamesDistinct dbDupReg) ∧
    (Reachable envW db0 dbDupUpd ∧ ¬ OrgNamesDistinct dbDupUpd) := by
  refine ⟨by simp [OrgNamesDistinct, db0], ⟨?_, ?_⟩, ⟨?_, ?_⟩⟩
  · exact Relation.ReflTransGen.tail
      (Relation.ReflTransGen.single
        (Step.create "o1" { name := "Acme", createdByUserId := none } db0
          (by simp [db0])))
      (Step.reg "o2" "u1"
        { email := "a@x.com", password := "p", name := none,
          organizationId := none, organizationName := some "Acme" } dbA
        (by decide) (by decide))
  · show ¬ dbDupReg.orgs.Pairwise (fun a b => a.name ≠ b.name)
    decide
  · exact Relation.ReflTransGen.tail
      (Relation.ReflTransGen.tail
        (Relation.ReflTransGen.single
          (Step.create "e1" { name := "", createdByUserId := none } db0
            (by simp [db0])))
        (Step.create "e2" { name := "X", createdByUserId := none } dbE1
          (by decide)))
      (Step.update "e2" { name := some "" } dbE2)
  · show ¬ dbDupUpd.orgs.Pairwise (fun a b => a.name ≠ b.name)
    decide
